import Mathlib

/-!
# Verification of the user-record service core

Shallow embedding of the core of the `Prodigy-BD` user-record service:

* the field validator `validateUserData`,
* the bulk-create loop of `app.post('/api/users')` (per-item partial
  failure, duplicate-key conversion, never-abort-early),
* the partial-update route `app.put('/api/users/:id')`,
* the Redis read-through cache middleware `cache` and the pattern
  invalidator `clearCache`.

JavaScript values that flow through the validator are modelled by `JsVal`
(numbers as rationals: every numeric literal appearing in the source and in
the scenarios below is exactly representable, and no claim depends on
floating-point rounding).  The Mongo persistence collaborator is modelled
at the contract level given by the specification (`create -> Record |
ConflictError`, conflict = duplicate email w.r.t. the schema's unique,
lowercased email index); the bulk loop itself is parameterised over an
arbitrary stateful `save` collaborator so that its control-flow properties
hold for every persistence behaviour.
-/

set_option autoImplicit false

namespace Prodigy

/-- A JavaScript primitive value as it reaches the validator.  Property
access on a missing field yields `undef`. -/
inductive JsVal where
  | undef
  | nullV
  | num (q : ℚ)
  | str (s : String)
  | boolV (b : Bool)
deriving DecidableEq, Repr

/-- JavaScript truthiness of a `JsVal` (the `!x` test in the source,
negated).  `NaN` does not arise: see the header comment. -/
def jsTruthy : JsVal → Bool
  | .undef => false
  | .nullV => false
  | .num q => q != 0
  | .str s => s != ""
  | .boolV b => b

/-- The email regular expression of `validateUserData`:
`/^[^\s@]+@[^\s@]+\.[^\s@]+$/`.  It matches exactly the strings with a
single `@`, no whitespace anywhere, a nonempty local part, and a domain
part that contains a dot in an interior position (`[^\s@]` also matches
`.`, so only an interior dot is forced). -/
def emailMatch (s : String) : Bool :=
  match s.toList.splitOn '@' with
  | [loc, dom] =>
    !loc.isEmpty && loc.all (fun c => !c.isWhitespace) &&
    !dom.isEmpty && dom.all (fun c => !c.isWhitespace) &&
    ((dom.drop 1).dropLast.contains '.')
  | _ => false

/-- Model of `regex.test(x)`, which coerces its argument to a string.  The coercions of
the non-string primitives (`"undefined"`, `"null"`, `"true"`, `"false"`,
decimal numerals) contain no `@`, so the email regex never matches them. -/
def jsEmailTest : JsVal → Bool
  | .str s => emailMatch s
  | _ => false

/-- The age check `typeof age !== 'number' || age < 1 || age > 120`. -/
def jsAgeInvalid : JsVal → Bool
  | .num q => decide (q < 1) || decide (120 < q)
  | _ => true

/-- The `name`/`email`/`age` triple of a request body object, as seen by
`validateUserData` (absent properties read as `undef`; the credential and
role fields are owned by the excluded auth collaborator). -/
structure UserData where
  name : JsVal
  email : JsVal
  age : JsVal
deriving DecidableEq, Repr

/-- A validation-error object as pushed by `validateUserData` and by the
bulk loop's duplicate/other handlers.  Properties a given object does not
carry are `none`. -/
structure ValidationIssue where
  vtype : String
  value : Option JsVal
  msg : String
  path : Option String
  location : Option String
deriving DecidableEq, Repr

def nameRequiredIssue : ValidationIssue :=
  ⟨"field", none, "Name is required", some "name", some "body"⟩

def emailRequiredIssue : ValidationIssue :=
  ⟨"field", none, "Email is required", some "email", some "body"⟩

def emailInvalidIssue : ValidationIssue :=
  ⟨"field", none, "Please enter a valid email", some "email", some "body"⟩

def ageRequiredIssue : ValidationIssue :=
  ⟨"field", none, "Age is required", some "age", some "body"⟩

def ageInvalidIssue : ValidationIssue :=
  ⟨"field", none, "Age must be between 1 and 120", some "age", some "body"⟩

/-- Embedding of `validateUserData` from the source: three independent field checks
pushing onto a single `errors` array, in declaration order. -/
def validateUserData (userData : UserData) : List ValidationIssue :=
  let errors : List ValidationIssue := []
  let errors :=
    if !jsTruthy userData.name then errors ++ [nameRequiredIssue]
    else errors
  let errors :=
    if !jsTruthy userData.email then errors ++ [emailRequiredIssue]
    else if !jsEmailTest userData.email then errors ++ [emailInvalidIssue]
    else errors
  let errors :=
    if userData.age == JsVal.undef || userData.age == JsVal.nullV then
      errors ++ [ageRequiredIssue]
    else if jsAgeInvalid userData.age then errors ++ [ageInvalidIssue]
    else errors
  errors

example : validateUserData ⟨.str "A", .str "a@x.com", .num 25⟩ = [] := by decide

/-- The non-integer rational 25.5, built so that kernel reduction works. -/
def halfFiftyOne : ℚ := ⟨51, 2, by decide, by decide⟩

example : validateUserData ⟨.str " ", .str "a@x.com", .num halfFiftyOne⟩ = [] := by decide

example : validateUserData ⟨.undef, .undef, .undef⟩ =
    [nameRequiredIssue, emailRequiredIssue, ageRequiredIssue] := by decide

example : emailMatch "a@x.com" = true := by decide
example : emailMatch "a@.com" = false := by decide
example : emailMatch "a b@x.com" = false := by decide
example : emailMatch "a@xcom" = false := by decide

/-- Closed form of `validateUserData`: the three field checks contribute
independent segments, concatenated in declaration order. -/
theorem validateUserData_eq (ud : UserData) :
    validateUserData ud =
      (if !jsTruthy ud.name then [nameRequiredIssue] else []) ++
      ((if !jsTruthy ud.email then [emailRequiredIssue]
        else if !jsEmailTest ud.email then [emailInvalidIssue] else []) ++
       (if ud.age == JsVal.undef || ud.age == JsVal.nullV then [ageRequiredIssue]
        else if jsAgeInvalid ud.age then [ageInvalidIssue] else [])) := by
  unfold validateUserData
  split_ifs <;> simp_all

/-- The fixed field order of the schema: name, email, age. -/
def issueFieldIdx (v : ValidationIssue) : Nat :=
  if v.path = some "name" then 0 else if v.path = some "email" then 1 else 2

/-- The source's notion of a missing name: `!userData.name`. -/
def nameMissingB (ud : UserData) : Bool := !jsTruthy ud.name

/-- The source's notion of a missing email: `!userData.email`. -/
def emailMissingB (ud : UserData) : Bool := !jsTruthy ud.email

/-- The source's notion of a missing age: `undefined` or `null`. -/
def ageMissingB (ud : UserData) : Bool :=
  ud.age == JsVal.undef || ud.age == JsVal.nullV

/-- C6: for every input missing any of name, email, or age, the validator
returns exactly one issue per missing field — all violations reported
together — and the whole issue list is ordered by the fixed field order
name, email, age. -/
theorem validator_missing_fields_ordered (ud : UserData)
    (h : nameMissingB ud || emailMissingB ud || ageMissingB ud) :
    (validateUserData ud).count nameRequiredIssue
        = (if nameMissingB ud then 1 else 0) ∧
    (validateUserData ud).count emailRequiredIssue
        = (if emailMissingB ud then 1 else 0) ∧
    (validateUserData ud).count ageRequiredIssue
        = (if ageMissingB ud then 1 else 0) ∧
    ((validateUserData ud).map issueFieldIdx).Pairwise (· ≤ ·) := by
  clear h
  rw [validateUserData_eq]
  unfold nameMissingB emailMissingB ageMissingB
  split_ifs <;> decide

def c6ex : UserData := ⟨.undef, .str "a@x.com", .num 25⟩

theorem validator_missing_fields_ordered_witness :
    (nameMissingB c6ex || emailMissingB c6ex || ageMissingB c6ex) = true ∧
    ((validateUserData c6ex).count nameRequiredIssue
        = (if nameMissingB c6ex then 1 else 0) ∧
     (validateUserData c6ex).count emailRequiredIssue
        = (if emailMissingB c6ex then 1 else 0) ∧
     (validateUserData c6ex).count ageRequiredIssue
        = (if ageMissingB c6ex then 1 else 0) ∧
     ((validateUserData c6ex).map issueFieldIdx).Pairwise (· ≤ ·)) :=
  ⟨by decide, validator_missing_fields_ordered c6ex (by decide)⟩

def c7ex : UserData := ⟨.str "A", .str "a@x.com", .num halfFiftyOne⟩

/-- C7 counterexample: age 25.5 is present, non-null, in [1, 120], and not
an integer (denominator 2), yet the validator reports no issue at all.
The source tests `typeof age !== 'number'`, not integrality, so the claim
"invalid whenever the value is not an integer" fails here. -/
theorem age_noninteger_accepted :
    validateUserData c7ex = [] ∧ halfFiftyOne.den ≠ 1 ∧
      1 ≤ halfFiftyOne ∧ halfFiftyOne ≤ 120 := by
  refine ⟨by decide, by decide, by decide, by decide⟩

/-- C7 (amended): for every input whose age is present and non-null, the
validator reports the "invalid" age issue iff the value is not a number,
or is a number below 1 or above 120.  Non-integer numbers inside the range
are accepted. -/
theorem age_invalid_iff (ud : UserData)
    (h1 : ud.age ≠ JsVal.undef) (h2 : ud.age ≠ JsVal.nullV) :
    ageInvalidIssue ∈ validateUserData ud ↔
      ∀ q : ℚ, ud.age = JsVal.num q → (q < 1 ∨ 120 < q) := by
  rw [validateUserData_eq]
  cases hage : ud.age with
  | num q =>
    simp only [hage, jsAgeInvalid, List.mem_append]
    split_ifs with hn he1 he2 hq <;>
      simp_all [nameRequiredIssue, emailRequiredIssue, emailInvalidIssue,
        ageRequiredIssue, ageInvalidIssue]
  | undef => exact absurd hage h1
  | nullV => exact absurd hage h2
  | str s =>
    simp only [hage, jsAgeInvalid, List.mem_append]
    split_ifs <;>
      simp_all [nameRequiredIssue, emailRequiredIssue, emailInvalidIssue,
        ageRequiredIssue, ageInvalidIssue]
  | boolV b =>
    simp only [hage, jsAgeInvalid, List.mem_append]
    split_ifs <;>
      simp_all [nameRequiredIssue, emailRequiredIssue, emailInvalidIssue,
        ageRequiredIssue, ageInvalidIssue]

theorem age_invalid_iff_witness :
    (JsVal.str "x" ≠ JsVal.undef) ∧ (JsVal.str "x" ≠ JsVal.nullV) ∧
    (ageInvalidIssue ∈ validateUserData ⟨.str "A", .str "a@x.com", .str "x"⟩ ↔
      ∀ q : ℚ, JsVal.str "x" = JsVal.num q → (q < 1 ∨ 120 < q)) :=
  ⟨by decide, by decide,
    age_invalid_iff ⟨.str "A", .str "a@x.com", .str "x"⟩ (by decide) (by decide)⟩

def c8ex : UserData := ⟨.str " ", .str "a@x.com", .num 25⟩

/-- C8 counterexample: a whitespace-only name is empty after trimming, yet
the validator reports nothing — the source tests `!userData.name`, and the
string " " is truthy. -/
theorem whitespace_name_accepted :
    validateUserData c8ex = [] ∧
      (" ".toList.all Char.isWhitespace ∧ " " ≠ "") := by
  refine ⟨by decide, by decide, by decide⟩

/-- C8 (amended): the validator reports the "missing" name issue iff the
name value is falsy — absent, null, the empty string, the number 0, or the
boolean false.  No trimming is applied, so a whitespace-only name string
is accepted. -/
theorem name_missing_iff (ud : UserData) :
    nameRequiredIssue ∈ validateUserData ud ↔
      (ud.name = JsVal.undef ∨ ud.name = JsVal.nullV ∨ ud.name = JsVal.str "" ∨
       ud.name = JsVal.num 0 ∨ ud.name = JsVal.boolV false) := by
  rw [validateUserData_eq]
  cases hn : ud.name with
  | num q =>
    simp only [hn, jsTruthy, List.mem_append]
    split_ifs <;>
      simp_all [nameRequiredIssue, emailRequiredIssue, emailInvalidIssue,
        ageRequiredIssue, ageInvalidIssue]
  | str s =>
    simp only [hn, jsTruthy, List.mem_append]
    split_ifs <;>
      simp_all [nameRequiredIssue, emailRequiredIssue, emailInvalidIssue,
        ageRequiredIssue, ageInvalidIssue]
  | undef =>
    simp only [hn, jsTruthy, List.mem_append]
    split_ifs <;>
      simp_all [nameRequiredIssue, emailRequiredIssue, emailInvalidIssue,
        ageRequiredIssue, ageInvalidIssue]
  | nullV =>
    simp only [hn, jsTruthy, List.mem_append]
    split_ifs <;>
      simp_all [nameRequiredIssue, emailRequiredIssue, emailInvalidIssue,
        ageRequiredIssue, ageInvalidIssue]
  | boolV b =>
    cases b <;>
    · simp only [hn, jsTruthy, List.mem_append]
      split_ifs <;>
        simp_all [nameRequiredIssue, emailRequiredIssue, emailInvalidIssue,
          ageRequiredIssue, ageInvalidIssue]

/-! ## Bulk Mutation Coordinator: the loop of `app.post('/api/users')` -/

/-- Model of `String.prototype.trim` at the character level (the library `String.trim`
does not reduce in the kernel). -/
def jsTrim (s : String) : String :=
  ⟨((s.toList.dropWhile Char.isWhitespace).reverse.dropWhile
      Char.isWhitespace).reverse⟩

/-- Model of `String.prototype.toLowerCase` restricted to ASCII, matching the
`lowercase: true` schema setter on the ASCII emails at hand. -/
def jsToLower (s : String) : String :=
  ⟨s.toList.map (fun c => if 'A' ≤ c ∧ c ≤ 'Z' then Char.ofNat (c.toNat + 32) else c)⟩

/-- The schema's email setters: `trim: true`, `lowercase: true`. -/
def normEmail (s : String) : String := jsToLower (jsTrim s)

/-- Normalisation applied by the schema when an email value is stored. -/
def jsNormEmail : JsVal → JsVal
  | .str s => .str (normEmail s)
  | v => v

/-- A persisted user document (credential/role fields are owned by the
excluded auth collaborator and not modelled). -/
structure UserDoc where
  id : Nat
  name : JsVal
  email : JsVal
  age : JsVal
deriving DecidableEq, Repr

/-- Outcome of one `user.save()` call: success, the duplicate-key signal
`error.code === 11000`, or any other error with its message. -/
inductive SaveResult where
  | ok (u : UserDoc)
  | dupKey
  | otherError (msg : String)
deriving DecidableEq, Repr

/-- The `{index, errors}` object pushed into the bulk `errors` array. -/
structure BulkError where
  index : Nat
  errors : List ValidationIssue
deriving DecidableEq, Repr

@[simp] theorem BulkError.index_mk (i : Nat) (es : List ValidationIssue) :
    (BulkError.mk i es).index = i := rfl

/-- The duplicate-key error object built by the bulk loop:
`{type:'field', value: userData.email, msg:'Email already exists',
path:'email', location:'body'}`. -/
def dupIssue (email : JsVal) : ValidationIssue :=
  ⟨"field", some email, "Email already exists", some "email", some "body"⟩

/-- The catch-all error object `{type:'error', msg: error.message}`. -/
def otherIssue (msg : String) : ValidationIssue :=
  ⟨"error", none, msg, none, none⟩

/-- Aggregated outcome of a bulk submission: the `results` and `errors`
arrays of the source, plus the final persistence-collaborator state. -/
structure BulkOutcome (σ : Type) where
  created : List UserDoc
  failures : List BulkError
  state : σ
deriving Repr

/-- The bulk branch of `app.post('/api/users')`, parameterised over the
stateful persistence collaborator `save` (state type `σ`).  Per item, in
input order: validate (recording `{index, errors}` and continuing on
failure), otherwise attempt `save`; a duplicate-key signal becomes a
"duplicate" failure, any other error an "error" failure; a success is
appended to `created`.  No branch aborts the remaining items. -/
def bulkCreate {σ : Type} (save : σ → UserData → SaveResult × σ) :
    σ → Nat → List UserData → BulkOutcome σ
  | st, _, [] => ⟨[], [], st⟩
  | st, i, ud :: rest =>
    let ve := validateUserData ud
    if ve.isEmpty then
      match save st ud with
      | (.ok u, st') =>
        let out := bulkCreate save st' (i + 1) rest
        ⟨u :: out.created, out.failures, out.state⟩
      | (.dupKey, st') =>
        let out := bulkCreate save st' (i + 1) rest
        ⟨out.created, ⟨i, [dupIssue ud.email]⟩ :: out.failures, out.state⟩
      | (.otherError m, st') =>
        let out := bulkCreate save st' (i + 1) rest
        ⟨out.created, ⟨i, [otherIssue m]⟩ :: out.failures, out.state⟩
    else
      let out := bulkCreate save st (i + 1) rest
      ⟨out.created, ⟨i, ve⟩ :: out.failures, out.state⟩

/-- The document built by `new User(userData)` with a fresh server-assigned
identifier; the schema setters normalise the email. -/
def mkUserDoc (nextId : Nat) (ud : UserData) : UserDoc :=
  ⟨nextId, ud.name, jsNormEmail ud.email, ud.age⟩

/-- The persistence collaborator at the contract level of the
specification (§6): `create -> Record | ConflictError`, where the conflict
signal is the unique, lowercased email index of the schema.  State: the
list of committed documents; fresh identifiers are assigned by position. -/
def mongoSave (db : List UserDoc) (ud : UserData) : SaveResult × List UserDoc :=
  if db.any (fun r => r.email == jsNormEmail ud.email) then
    (.dupKey, db)
  else
    let doc := mkUserDoc db.length ud
    (.ok doc, db ++ [doc])

/-- Version of `mongoSave` instrumented with a call counter, to observe whether the
loop attempts persistence for a given item. -/
def countingSave (st : Nat × List UserDoc) (ud : UserData) :
    SaveResult × (Nat × List UserDoc) :=
  let (r, db') := mongoSave st.2 ud
  (r, (st.1 + 1, db'))

theorem bulkCreate_nil {σ : Type} (save : σ → UserData → SaveResult × σ)
    (st : σ) (i : Nat) : bulkCreate save st i [] = ⟨[], [], st⟩ := rfl

theorem bulkCreate_cons_invalid {σ : Type} (save : σ → UserData → SaveResult × σ)
    (st : σ) (i : Nat) (ud : UserData) (rest : List UserData)
    (hv : ¬ (validateUserData ud).isEmpty = true) :
    bulkCreate save st i (ud :: rest) =
      ⟨(bulkCreate save st (i + 1) rest).created,
       ⟨i, validateUserData ud⟩ :: (bulkCreate save st (i + 1) rest).failures,
       (bulkCreate save st (i + 1) rest).state⟩ := by
  simp [bulkCreate, hv]

theorem bulkCreate_cons_ok {σ : Type} (save : σ → UserData → SaveResult × σ)
    (st st' : σ) (i : Nat) (ud : UserData) (rest : List UserData) (u : UserDoc)
    (hv : (validateUserData ud).isEmpty = true)
    (hsv : save st ud = (.ok u, st')) :
    bulkCreate save st i (ud :: rest) =
      ⟨u :: (bulkCreate save st' (i + 1) rest).created,
       (bulkCreate save st' (i + 1) rest).failures,
       (bulkCreate save st' (i + 1) rest).state⟩ := by
  simp [bulkCreate, hv, hsv]

theorem bulkCreate_cons_dup {σ : Type} (save : σ → UserData → SaveResult × σ)
    (st st' : σ) (i : Nat) (ud : UserData) (rest : List UserData)
    (hv : (validateUserData ud).isEmpty = true)
    (hsv : save st ud = (.dupKey, st')) :
    bulkCreate save st i (ud :: rest) =
      ⟨(bulkCreate save st' (i + 1) rest).created,
       ⟨i, [dupIssue ud.email]⟩ :: (bulkCreate save st' (i + 1) rest).failures,
       (bulkCreate save st' (i + 1) rest).state⟩ := by
  simp [bulkCreate, hv, hsv]

theorem bulkCreate_cons_err {σ : Type} (save : σ → UserData → SaveResult × σ)
    (st st' : σ) (i : Nat) (ud : UserData) (rest : List UserData) (m : String)
    (hv : (validateUserData ud).isEmpty = true)
    (hsv : save st ud = (.otherError m, st')) :
    bulkCreate save st i (ud :: rest) =
      ⟨(bulkCreate save st' (i + 1) rest).created,
       ⟨i, [otherIssue m]⟩ :: (bulkCreate save st' (i + 1) rest).failures,
       (bulkCreate save st' (i + 1) rest).state⟩ := by
  simp [bulkCreate, hv, hsv]

/-- Core induction for the bulk loop, for an arbitrary persistence
collaborator and arbitrary start index: the outcome partitions the inputs
by count, failure indices are the original positions (within range, in
strictly increasing order). -/
theorem bulkCreate_partition {σ : Type} (save : σ → UserData → SaveResult × σ) :
    ∀ (inputs : List UserData) (st : σ) (i : Nat),
      (bulkCreate save st i inputs).created.length
          + (bulkCreate save st i inputs).failures.length = inputs.length ∧
      (∀ e ∈ (bulkCreate save st i inputs).failures,
          i ≤ e.index ∧ e.index < i + inputs.length) ∧
      ((bulkCreate save st i inputs).failures.map BulkError.index).Pairwise (· < ·) := by
  intro inputs
  induction inputs with
  | nil => intro st i; simp [bulkCreate_nil]
  | cons ud rest ih =>
    intro st i
    by_cases hv : (validateUserData ud).isEmpty = true
    · rcases hsv : save st ud with ⟨res, st'⟩
      obtain ⟨h1, h2, h3⟩ := ih st' (i + 1)
      cases res with
      | ok u =>
        rw [bulkCreate_cons_ok save st st' i ud rest u hv hsv]
        simp only [List.length_cons]
        refine ⟨by omega, ?_, h3⟩
        intro e he
        have := h2 e he
        omega
      | dupKey =>
        rw [bulkCreate_cons_dup save st st' i ud rest hv hsv]
        simp only [List.length_cons, List.map_cons]
        refine ⟨by omega, ?_, ?_⟩
        · intro e he
          rcases List.mem_cons.mp he with h4 | h4
          · subst h4; simp only [BulkError.index_mk]; omega
          · have := h2 e h4
            omega
        · refine List.pairwise_cons.mpr ⟨?_, h3⟩
          intro j hj
          rcases List.mem_map.mp hj with ⟨e, he, rfl⟩
          have := h2 e he
          omega
      | otherError m =>
        rw [bulkCreate_cons_err save st st' i ud rest m hv hsv]
        simp only [List.length_cons, List.map_cons]
        refine ⟨by omega, ?_, ?_⟩
        · intro e he
          rcases List.mem_cons.mp he with h4 | h4
          · subst h4; simp only [BulkError.index_mk]; omega
          · have := h2 e h4
            omega
        · refine List.pairwise_cons.mpr ⟨?_, h3⟩
          intro j hj
          rcases List.mem_map.mp hj with ⟨e, he, rfl⟩
          have := h2 e he
          omega
    · obtain ⟨h1, h2, h3⟩ := ih st (i + 1)
      rw [bulkCreate_cons_invalid save st i ud rest hv]
      simp only [List.length_cons, List.map_cons]
      refine ⟨by omega, ?_, ?_⟩
      · intro e he
        rcases List.mem_cons.mp he with h4 | h4
        · subst h4; simp only [BulkError.index_mk]; omega
        · have := h2 e h4
          omega
      · refine List.pairwise_cons.mpr ⟨?_, h3⟩
        intro j hj
        rcases List.mem_map.mp hj with ⟨e, he, rfl⟩
        have := h2 e he
        omega

/-- C1: for every persistence collaborator and every bulk submission the
loop processes all items — created plus failures exhaust the input count —
and every failure entry carries its item's original input index: indices
are within range and strictly increasing, so the outcome is
position-correlated with the input order. -/
theorem bulk_never_aborts_partition {σ : Type}
    (save : σ → UserData → SaveResult × σ) (st : σ) (inputs : List UserData) :
    (bulkCreate save st 0 inputs).created.length
        + (bulkCreate save st 0 inputs).failures.length = inputs.length ∧
    (∀ e ∈ (bulkCreate save st 0 inputs).failures, e.index < inputs.length) ∧
    ((bulkCreate save st 0 inputs).failures.map BulkError.index).Pairwise (· < ·) := by
  have h := bulkCreate_partition save inputs st 0
  exact ⟨h.1, fun e he => by have := h.2.1 e he; omega, h.2.2⟩

def c1a : UserData := ⟨.str "Ann", .str "ann@x.com", .num 25⟩
def c1b : UserData := ⟨.undef, .str "bob@x.com", .num 30⟩

theorem bulk_never_aborts_partition_witness :
    (bulkCreate mongoSave [] 0 [c1a, c1b]).created.length
        + (bulkCreate mongoSave [] 0 [c1a, c1b]).failures.length = [c1a, c1b].length ∧
    (∀ e ∈ (bulkCreate mongoSave [] 0 [c1a, c1b]).failures,
        e.index < [c1a, c1b].length) ∧
    ((bulkCreate mongoSave [] 0 [c1a, c1b]).failures.map BulkError.index).Pairwise (· < ·) :=
  bulk_never_aborts_partition mongoSave [] [c1a, c1b]

theorem mongoSave_no_conflict (db : List UserDoc) (ud : UserData) (s : String)
    (he : ud.email = JsVal.str s)
    (hdb : ∀ r ∈ db, r.email ≠ JsVal.str (normEmail s)) :
    mongoSave db ud = (.ok (mkUserDoc db.length ud), db ++ [mkUserDoc db.length ud]) := by
  unfold mongoSave
  have hany : db.any (fun r => r.email == jsNormEmail ud.email) = false := by
    rw [List.any_eq_false]
    intro r hr
    rw [he]
    simpa [jsNormEmail] using hdb r hr
  rw [hany]
  simp

theorem mongoSave_conflict (db : List UserDoc) (ud : UserData) (s : String)
    (he : ud.email = JsVal.str s)
    (hr : ∃ r ∈ db, r.email = JsVal.str (normEmail s)) :
    mongoSave db ud = (.dupKey, db) := by
  unfold mongoSave
  have hany : db.any (fun r => r.email == jsNormEmail ud.email) = true := by
    rw [List.any_eq_true]
    rcases hr with ⟨r, hrm, hre⟩
    exact ⟨r, hrm, by rw [he]; simp [jsNormEmail, hre]⟩
  rw [hany]
  simp

/-- C3: for a batch of two otherwise-valid items sharing the same email,
with no pre-existing record holding that (normalised) email, the outcome
is: the first item's document is the sole created record, and the second
item fails at index 1 with the "duplicate" issue on the email field. -/
theorem duplicate_email_batch (db : List UserDoc) (a b : UserData) (s : String)
    (ha : validateUserData a = []) (hb : validateUserData b = [])
    (hae : a.email = JsVal.str s) (hbe : b.email = JsVal.str s)
    (hdb : ∀ r ∈ db, r.email ≠ JsVal.str (normEmail s)) :
    bulkCreate mongoSave db 0 [a, b] =
      ⟨[mkUserDoc db.length a],
       [⟨1, [dupIssue (JsVal.str s)]⟩],
       db ++ [mkUserDoc db.length a]⟩ := by
  have hsa := mongoSave_no_conflict db a s hae hdb
  have hsb : mongoSave (db ++ [mkUserDoc db.length a]) b = (.dupKey, db ++ [mkUserDoc db.length a]) := by
    refine mongoSave_conflict _ b s hbe ⟨mkUserDoc db.length a, ?_, ?_⟩
    · simp
    · simp [mkUserDoc, jsNormEmail, hae]
  rw [bulkCreate_cons_ok mongoSave db _ 0 a [b] _ (by rw [ha]; rfl) hsa]
  rw [bulkCreate_cons_dup mongoSave _ _ 1 b [] (by rw [hb]; rfl) hsb]
  rw [bulkCreate_nil]
  rw [hbe]

def c3a : UserData := ⟨.str "A", .str "a@x.com", .num 25⟩
def c3b : UserData := ⟨.str "B", .str "a@x.com", .num 30⟩

theorem duplicate_email_batch_witness :
    validateUserData c3a = [] ∧ validateUserData c3b = [] ∧
    bulkCreate mongoSave [] 0 [c3a, c3b] =
      ⟨[mkUserDoc 0 c3a],
       [⟨1, [dupIssue (JsVal.str "a@x.com")]⟩],
       [] ++ [mkUserDoc 0 c3a]⟩ :=
  ⟨by decide, by decide,
    duplicate_email_batch [] c3a c3b "a@x.com" (by decide) (by decide)
      (by decide) (by decide) (by simp)⟩

theorem countingSave_eq (n : Nat) (db : List UserDoc) (ud : UserData) :
    countingSave (n, db) ud =
      ((mongoSave db ud).1, (n + 1, (mongoSave db ud).2)) := rfl

def c2a : UserData := ⟨.str "A", .str "a@x.com", .num 25⟩
def c2b : UserData := ⟨.str "B", .str "a@x.com", .num 30⟩

/-- C2 counterexample: for the two-item batch sharing the email
"a@x.com" (empty initial store), the persistence collaborator is invoked
twice — once per item — so persistence *is* attempted for the later
duplicate item; its "duplicate" failure is produced from the
collaborator's conflict signal, not by a batch-local uniqueness check
evaluated before the persistence call.  Had such a pre-persistence check
existed, the call count would be 1. -/
theorem duplicate_hits_persistence :
    (bulkCreate countingSave (0, []) 0 [c2a, c2b]).state.1 = 2 ∧
    (bulkCreate countingSave (0, []) 0 [c2a, c2b]).failures
      = [⟨1, [dupIssue (.str "a@x.com")]⟩] := by
  refine ⟨by decide, by decide⟩

/-- C2 (amended): a later batch item whose email equals that of an earlier
item already committed in the same batch is recorded as a "duplicate"
failure via the uniqueness-conflict signal raised by the persistence
collaborator when the item's own create is attempted — persistence is
attempted for the duplicate item as well (the collaborator is called once
per validation-passing item, here twice), and the conflict arises because
the collaborator's state already contains the batch's earlier committed
record.  There is no batch-local pre-persistence check. -/
theorem duplicate_via_conflict_signal (db : List UserDoc) (n : Nat)
    (a b : UserData) (s : String)
    (ha : validateUserData a = []) (hb : validateUserData b = [])
    (hae : a.email = JsVal.str s) (hbe : b.email = JsVal.str s)
    (hdb : ∀ r ∈ db, r.email ≠ JsVal.str (normEmail s)) :
    (bulkCreate countingSave (n, db) 0 [a, b]).failures
        = [⟨1, [dupIssue (JsVal.str s)]⟩] ∧
    (bulkCreate countingSave (n, db) 0 [a, b]).state.1 = n + 2 := by
  have hsa : countingSave (n, db) a =
      (.ok (mkUserDoc db.length a), (n + 1, db ++ [mkUserDoc db.length a])) := by
    rw [countingSave_eq, mongoSave_no_conflict db a s hae hdb]
  have hsb : countingSave (n + 1, db ++ [mkUserDoc db.length a]) b =
      (.dupKey, (n + 2, db ++ [mkUserDoc db.length a])) := by
    rw [countingSave_eq,
      mongoSave_conflict _ b s hbe
        ⟨mkUserDoc db.length a, by simp, by simp [mkUserDoc, jsNormEmail, hae]⟩]
  rw [bulkCreate_cons_ok countingSave _ _ 0 a [b] _ (by rw [ha]; rfl) hsa]
  rw [bulkCreate_cons_dup countingSave _ _ 1 b [] (by rw [hb]; rfl) hsb]
  rw [bulkCreate_nil, hbe]
  exact ⟨rfl, rfl⟩

theorem duplicate_via_conflict_signal_witness :
    validateUserData c2a = [] ∧ validateUserData c2b = [] ∧
    ((bulkCreate countingSave (0, []) 0 [c2a, c2b]).failures
        = [⟨1, [dupIssue (JsVal.str "a@x.com")]⟩] ∧
     (bulkCreate countingSave (0, []) 0 [c2a, c2b]).state.1 = 0 + 2) :=
  ⟨by decide, by decide,
    duplicate_via_conflict_signal [] 0 c2a c2b "a@x.com" (by decide) (by decide)
      (by decide) (by decide) (by simp)⟩

/-! ## Partial update: `app.put('/api/users/:id')` -/

/-- The `updates` object of the PUT route: a field is carried iff it was
explicitly present (`!== undefined`) in the request body. -/
structure Updates where
  name : Option JsVal
  email : Option JsVal
  age : Option JsVal
deriving DecidableEq, Repr

/-- Embedding of `const updates` initialised empty, followed by
`if (x !== undefined) updates.x = x` for each of name, email, age. -/
def buildUpdates (body : UserData) : Updates :=
  ⟨if body.name == JsVal.undef then none else some body.name,
   if body.email == JsVal.undef then none else some body.email,
   if body.age == JsVal.undef then none else some body.age⟩

/-- Normalisation applied by the schema when a name value is stored
(`trim: true`). -/
def jsNormName : JsVal → JsVal
  | .str s => .str (jsTrim s)
  | v => v

/-- Application of `$set` of the collected updates on a stored document;
the schema setters trim an updated name and trim-and-lowercase an updated
email. -/
def applySet (u : UserDoc) (up : Updates) : UserDoc :=
  ⟨u.id,
   (up.name.map jsNormName).getD u.name,
   (up.email.map jsNormEmail).getD u.email,
   up.age.getD u.age⟩

/-- A word character of the schema email regular expression
(`\w` = ASCII letter, digit or underscore). -/
def isWordChar (c : Char) : Bool := c.isAlphanum || c == '_'

/-- A separator allowed between word runs in the schema email regular
expression (`[\.-]?`). -/
def isSepChar (c : Char) : Bool := c == '.' || c == '-'

/-- Matcher for the sub-pattern `\w+([\.-]?\w+)*` of the schema email
regular expression: a nonempty string over word and separator characters
that starts and ends with a word character and has no two adjacent
separators. -/
def wordPartB (cs : List Char) : Bool :=
  !cs.isEmpty &&
  cs.all (fun c => isWordChar c || isSepChar c) &&
  (match cs.head? with | some c => isWordChar c | none => false) &&
  (match cs.getLast? with | some c => isWordChar c | none => false) &&
  (cs.zip cs.tail).all (fun p => !(isSepChar p.1 && isSepChar p.2))

/-- Matcher for the sub-pattern `(\.\w{2,3})+` of the schema email
regular expression: one or more groups of a dot followed by exactly two
or three word characters. -/
def tldTailB (cs : List Char) : Bool :=
  match cs.splitOn '.' with
  | [] :: groups =>
    !groups.isEmpty &&
    groups.all (fun g => (g.length == 2 || g.length == 3) && g.all isWordChar)
  | _ => false

/-- The schema email regular expression
`/^\w+([\.-]?\w+)*@\w+([\.-]?\w+)*(\.\w{2,3})+$/` (`match:` on the email
path, part_000 line 45): a word part, `@`, and a domain that splits into
a word part followed by a dot-separated 2-3 character tld tail.  The
domain split point is found by trying every position. -/
def schemaEmailMatch (s : String) : Bool :=
  match s.toList.splitOn '@' with
  | [loc, dom] =>
    wordPartB loc &&
    (List.range (dom.length + 1)).any
      (fun i => wordPartB (dom.take i) && tldTailB (dom.drop i))
  | _ => false

example : schemaEmailMatch "a@x.com" = true := by decide
example : schemaEmailMatch "n@x.com" = true := by decide
example : schemaEmailMatch "a@x.c" = false := by decide
example : schemaEmailMatch "a@xcom" = false := by decide
example : schemaEmailMatch "a@x.info" = false := by decide

/-- Update validator for the name path under `runValidators: true`
(schema: `required`, `trim`): `null` fails `required`, a string failing
to be nonempty after trimming fails `required`; other primitives cast to
nonempty strings and pass. -/
def nameUpdateOk : JsVal → Bool
  | .str s => jsTrim s != ""
  | .nullV => false
  | .undef => false
  | _ => true

/-- Update validator for the email path under `runValidators: true`
(schema: `required`, `trim`, `lowercase`, `match`): the normalised value
must match the schema email regular expression; `null` fails `required`,
and the casts of the other primitives contain no `@`. -/
def emailUpdateOk : JsVal → Bool
  | .str s => schemaEmailMatch (normEmail s)
  | _ => false

/-- Update validator for the age path under `runValidators: true`
(schema: `Number`, `required`, `min: 1`, `max: 120`): a number inside the
inclusive range passes; `null` fails `required`.  The cast the external
mongoose collaborator applies to non-number primitives is not pinned down
by the schema in the source; every such value is modelled as a rejection,
and no theorem below depends on that boundary — both acceptance and
rejection leave fields absent from the request untouched. -/
def ageUpdateOk : JsVal → Bool
  | .num q => decide (1 ≤ q) && decide (q ≤ 120)
  | _ => false

/-- Validation of a `$set` object under `runValidators: true`: exactly
the paths present in the update are validated. -/
def updatesValid (up : Updates) : Bool :=
  (match up.name with | some v => nameUpdateOk v | none => true) &&
  (match up.email with | some v => emailUpdateOk v | none => true) &&
  (match up.age with | some v => ageUpdateOk v | none => true)

/-- The unique email index at write time: an updated email raises the
duplicate-key signal (`error.code === 11000`) iff another stored document
already holds the normalised value. -/
def emailConflict (db : List UserDoc) (id : Nat) (up : Updates) : Bool :=
  match up.email with
  | some v => db.any (fun u => u.id != id && u.email == jsNormEmail v)
  | none => false

/-- Outcome of the update call as the route observes it: the updated
document, `null` for an unknown identifier (the 404 branch), or a
rejection — `ValidationError` from `runValidators: true`, or the
duplicate-key signal 11000 — caught by the route's error handlers, which
return 400 with the store unchanged. -/
inductive UpdateResult where
  | ok (u : UserDoc)
  | notFound
  | rejected (msg : String)
deriving DecidableEq, Repr

/-- Embedding of `User.findByIdAndUpdate` with `$set: updates`,
`new: true`, `runValidators: true`: the update validators run first on
the supplied paths (a failure rejects the update wholesale, store
unchanged); then the query executes (`null` for an unknown identifier);
then the write hits the unique email index (a conflict rejects with
11000, store unchanged); otherwise the `$set` is applied. -/
def findByIdAndUpdate (db : List UserDoc) (id : Nat) (up : Updates) :
    UpdateResult × List UserDoc :=
  if updatesValid up then
    match db.find? (fun u => u.id == id) with
    | none => (.notFound, db)
    | some r =>
      if emailConflict db id up then
        (.rejected "E11000 duplicate key error", db)
      else
        let r' := applySet r up
        (.ok r', db.map (fun u => if u.id == id then r' else u))
  else
    (.rejected "ValidationError", db)

/-- The body of `app.put('/api/users/:id')`. -/
def updateUser (db : List UserDoc) (id : Nat) (body : UserData) :
    UpdateResult × List UserDoc :=
  findByIdAndUpdate db id (buildUpdates body)

theorem findByIdAndUpdate_invalid (db : List UserDoc) (id : Nat) (up : Updates)
    (hv : updatesValid up = false) :
    findByIdAndUpdate db id up = (.rejected "ValidationError", db) := by
  simp [findByIdAndUpdate, hv]

theorem findByIdAndUpdate_conflict (db : List UserDoc) (id : Nat) (up : Updates)
    (r : UserDoc) (hv : updatesValid up = true)
    (hr : db.find? (fun u => u.id == id) = some r)
    (hc : emailConflict db id up = true) :
    findByIdAndUpdate db id up = (.rejected "E11000 duplicate key error", db) := by
  simp [findByIdAndUpdate, hv, hr, hc]

theorem findByIdAndUpdate_ok (db : List UserDoc) (id : Nat) (up : Updates)
    (r : UserDoc) (hv : updatesValid up = true)
    (hr : db.find? (fun u => u.id == id) = some r)
    (hc : emailConflict db id up = false) :
    findByIdAndUpdate db id up =
      (.ok (applySet r up),
       db.map (fun u => if u.id == id then applySet r up else u)) := by
  simp [findByIdAndUpdate, hv, hr, hc]

/-- C9: only the fields explicitly present in a partial update request
are ever changed on the stored record.  Every rejection path
(`ValidationError` from `runValidators`, duplicate-key 11000) leaves the
store entirely unchanged; on success the updated document keeps the
identifier and every absent (`undefined`) field at its previous value and
every other stored record is untouched; and an `{age}`-only body with an
in-range numeric age succeeds, changing exactly the age of the target
record. -/
theorem updatePartial_frame (db : List UserDoc) (id : Nat) (body : UserData)
    (r : UserDoc) (hr : db.find? (fun u => u.id == id) = some r) :
    (∀ m, (updateUser db id body).1 = .rejected m →
      (updateUser db id body).2 = db) ∧
    (∀ r', (updateUser db id body).1 = .ok r' →
      (body.name = JsVal.undef → r'.name = r.name) ∧
      (body.email = JsVal.undef → r'.email = r.email) ∧
      (body.age = JsVal.undef → r'.age = r.age) ∧
      r'.id = r.id ∧
      ∀ u ∈ db, u.id ≠ id → u ∈ (updateUser db id body).2) ∧
    (body.name = JsVal.undef → body.email = JsVal.undef →
      ∀ q : ℚ, body.age = JsVal.num q → 1 ≤ q → q ≤ 120 →
      (updateUser db id body).1 = .ok ⟨r.id, r.name, r.email, JsVal.num q⟩ ∧
      (updateUser db id body).2 =
        db.map (fun u => if u.id == id then ⟨r.id, r.name, r.email, JsVal.num q⟩ else u)) := by
  refine ⟨?_, ?_, ?_⟩
  · intro m hm
    by_cases hv : updatesValid (buildUpdates body) = true
    · by_cases hc : emailConflict db id (buildUpdates body) = true
      · simp only [updateUser] at hm ⊢
        rw [findByIdAndUpdate_conflict db id (buildUpdates body) r hv hr hc]
      · rw [Bool.not_eq_true] at hc
        simp only [updateUser] at hm
        rw [findByIdAndUpdate_ok db id (buildUpdates body) r hv hr hc] at hm
        exact absurd hm (by simp)
    · rw [Bool.not_eq_true] at hv
      simp only [updateUser] at hm ⊢
      rw [findByIdAndUpdate_invalid db id (buildUpdates body) hv]
  · intro r' hok
    by_cases hv : updatesValid (buildUpdates body) = true
    · by_cases hc : emailConflict db id (buildUpdates body) = true
      · simp only [updateUser] at hok
        rw [findByIdAndUpdate_conflict db id (buildUpdates body) r hv hr hc] at hok
        exact absurd hok (by simp)
      · rw [Bool.not_eq_true] at hc
        simp only [updateUser] at hok ⊢
        rw [findByIdAndUpdate_ok db id (buildUpdates body) r hv hr hc] at hok
        have hr' : applySet r (buildUpdates body) = r' := by
          simpa using hok
        subst hr'
        refine ⟨?_, ?_, ?_, rfl, ?_⟩
        · intro h
          simp [applySet, buildUpdates, h]
        · intro h
          simp [applySet, buildUpdates, h]
        · intro h
          simp [applySet, buildUpdates, h]
        · intro u hu hne
          rw [findByIdAndUpdate_ok db id (buildUpdates body) r hv hr hc]
          refine List.mem_map.mpr ⟨u, hu, ?_⟩
          simp [hne]
    · rw [Bool.not_eq_true] at hv
      simp only [updateUser] at hok
      rw [findByIdAndUpdate_invalid db id (buildUpdates body) hv] at hok
      exact absurd hok (by simp)
  · intro hn he q hq h1 h120
    have hb : buildUpdates body = ⟨none, none, some (JsVal.num q)⟩ := by
      simp [buildUpdates, hn, he, hq]
    have hv : updatesValid (buildUpdates body) = true := by
      rw [hb]
      simp [updatesValid, ageUpdateOk, h1, h120]
    have hc : emailConflict db id (buildUpdates body) = false := by
      rw [hb]
      rfl
    have happ : applySet r (buildUpdates body) = ⟨r.id, r.name, r.email, JsVal.num q⟩ := by
      rw [hb]
      rfl
    simp only [updateUser]
    rw [findByIdAndUpdate_ok db id (buildUpdates body) r hv hr hc, happ]
    exact ⟨rfl, rfl⟩

def c9db : List UserDoc := [⟨0, .str "N", .str "n@x.com", .num 25⟩]
def c9body : UserData := ⟨.undef, .undef, .num 31⟩

example : (updateUser c9db 0 ⟨.undef, .undef, .num 500⟩).1
    = .rejected "ValidationError" := by decide

example : (updateUser c9db 0 ⟨.undef, .undef, .num 500⟩).2 = c9db := by decide

theorem updatePartial_frame_witness :
    c9db.find? (fun u => u.id == 0) = some ⟨0, .str "N", .str "n@x.com", .num 25⟩ ∧
    c9body.name = JsVal.undef ∧ c9body.email = JsVal.undef ∧
    c9body.age = JsVal.num 31 ∧ (1 : ℚ) ≤ 31 ∧ (31 : ℚ) ≤ 120 ∧
    ((∀ m, (updateUser c9db 0 c9body).1 = .rejected m →
        (updateUser c9db 0 c9body).2 = c9db) ∧
     (updateUser c9db 0 c9body).1
        = .ok ⟨0, JsVal.str "N", JsVal.str "n@x.com", JsVal.num 31⟩ ∧
     (updateUser c9db 0 c9body).2 =
        c9db.map (fun u => if u.id == 0
          then ⟨0, JsVal.str "N", JsVal.str "n@x.com", JsVal.num 31⟩ else u)) :=
  ⟨by decide, by decide, by decide, by decide, by decide, by decide,
    (updatePartial_frame c9db 0 c9body ⟨0, .str "N", .str "n@x.com", .num 25⟩
        (by decide)).1,
    ((updatePartial_frame c9db 0 c9body ⟨0, .str "N", .str "n@x.com", .num 25⟩
        (by decide)).2.2 (by decide) (by decide) 31 (by decide) (by decide)
        (by decide)).1,
    ((updatePartial_frame c9db 0 c9body ⟨0, .str "N", .str "n@x.com", .num 25⟩
        (by decide)).2.2 (by decide) (by decide) 31 (by decide) (by decide)
        (by decide)).2⟩

/-! ## Cache Layer: the `cache` middleware and `clearCache` -/

/-- Redis glob matching for `KEYS pattern` as used by `clearCache`
(`*` any sequence, `?` any single character, other characters literal).
Structural recursion on a fuel argument so that the kernel can evaluate
it; every recursive call shrinks `p.length + s.length`, so the fuel used
by `globMatch` below never runs out. -/
def globMatchAux : Nat → List Char → List Char → Bool
  | 0, _, _ => false
  | _ + 1, [], [] => true
  | _ + 1, [], _ :: _ => false
  | fuel + 1, '*' :: ps, [] => globMatchAux fuel ps []
  | fuel + 1, '*' :: ps, c :: cs =>
    globMatchAux fuel ps (c :: cs) || globMatchAux fuel ('*' :: ps) cs
  | _ + 1, '?' :: _, [] => false
  | fuel + 1, '?' :: ps, _ :: cs => globMatchAux fuel ps cs
  | _ + 1, _ :: _, [] => false
  | fuel + 1, p :: ps, c :: cs => p == c && globMatchAux fuel ps cs

def globMatch (p s : List Char) : Bool :=
  globMatchAux (p.length + s.length + 1) p s

def keyMatches (pat k : String) : Bool := globMatch pat.toList k.toList

example : keyMatches "a:*" "a:1" = true := rfl
example : keyMatches "a:*" "b:1" = false := rfl
example : keyMatches "a:?" "a:12" = false := rfl

/-- One stored key with its serialized payload and expiry instant
(`SETEX` semantics: the key lives while `now < expiresAt`). -/
structure RedisEntry where
  key : String
  value : String
  expiresAt : Nat
deriving DecidableEq, Repr

/-- The key-value store collaborator.  The four failure flags model the
collaborator throwing on the corresponding operation (lookup, store,
pattern scan, batch delete). -/
structure RedisState where
  entries : List RedisEntry
  gFail : Bool
  sFail : Bool
  kFail : Bool
  dFail : Bool
deriving DecidableEq, Repr

/-- Model of `redisClient.get(key)`: the stored value while unexpired, a miss
otherwise. -/
def redisGet (r : RedisState) (now : Nat) (k : String) :
    Except String (Option String) :=
  if r.gFail then .error "cache error" else
  match r.entries.find? (fun e => e.key == k) with
  | some e => .ok (if now < e.expiresAt then some e.value else none)
  | none => .ok none

/-- Model of `redisClient.setex(key, ttl, value)`. -/
def redisSetex (r : RedisState) (now : Nat) (k : String) (ttl : Nat)
    (v : String) : Except String RedisState :=
  if r.sFail then .error "cache error" else
  .ok { r with entries := ⟨k, v, now + ttl⟩ :: r.entries.filter (fun e => e.key != k) }

/-- Model of `redisClient.keys(pattern)`: the unexpired keys matching the glob. -/
def redisKeys (r : RedisState) (now : Nat) (pat : String) :
    Except String (List String) :=
  if r.kFail then .error "cache error" else
  .ok ((r.entries.filter
    (fun e => keyMatches pat e.key && decide (now < e.expiresAt))).map RedisEntry.key)

/-- Model of `redisClient.del(keys)`. -/
def redisDel (r : RedisState) (ks : List String) : Except String RedisState :=
  if r.dFail then .error "cache error" else
  .ok { r with entries := r.entries.filter (fun e => !ks.contains e.key) }

/-- What the downstream handler (the loader) would respond: a serialized
body and an HTTP status.  `JSON.parse`/`JSON.stringify` round-tripping is
modelled as the identity on the serialized payload. -/
structure LoaderResult where
  body : String
  status : Nat
deriving DecidableEq, Repr

/-- The overridden `res.json` of the middleware: cache the outgoing body
under the key iff the response status is 200.  The `setex` call is issued
without `await`; a store failure is invisible to the request, leaving the
store unchanged. -/
def storeIfOk (r : RedisState) (now : Nat) (key : String) (ttl : Nat)
    (loader : LoaderResult) : RedisState :=
  if loader.status == 200 then
    match redisSetex r now key ttl loader.body with
    | .ok r' => r'
    | .error _ => r
  else r

/-- The `try` block of the `cache` middleware: look the key up; a present
truthy (non-empty) payload is served from cache without running the
downstream handler; otherwise the handler runs and its 200-response is
cached.  Returns (response body, store state, whether the loader ran). -/
def cacheBody (r : RedisState) (now : Nat) (key : String) (ttl : Nat)
    (loader : LoaderResult) : Except String (String × RedisState × Bool) := do
  let cachedData ← redisGet r now key
  match cachedData with
  | some data =>
    if data != "" then
      pure (data, r, false)
    else
      pure (loader.body, storeIfOk r now key ttl loader, true)
  | none =>
    pure (loader.body, storeIfOk r now key ttl loader, true)

/-- The `cache(key, ttl)` middleware: on any error from the store the
`catch` block falls through to `next()` — the downstream handler runs and
its result is returned uncached, as if no cache existed. -/
def cache (r : RedisState) (now : Nat) (key : String) (ttl : Nat)
    (loader : LoaderResult) : String × RedisState × Bool :=
  match cacheBody r now key ttl loader with
  | .ok out => out
  | .error _ => (loader.body, r, true)

/-- The `try` block of `clearCache(keyPattern)`: scan for matching keys
and batch-delete them when there are any. -/
def clearCacheBody (r : RedisState) (now : Nat) (pat : String) :
    Except String RedisState := do
  let keys ← redisKeys r now pat
  if keys.length > 0 then
    redisDel r keys
  else
    pure r

/-- Embedding of `clearCache(keyPattern)`: any store error is caught and logged, and
control falls through to `next()` with the store as it was. -/
def clearCache (r : RedisState) (now : Nat) (pat : String) : RedisState :=
  match clearCacheBody r now pat with
  | .ok r' => r'
  | .error _ => r

theorem redisGet_gFail_false {r : RedisState} {now : Nat} {k : String}
    {o : Option String} (h : redisGet r now k = .ok o) : r.gFail = false := by
  by_contra hg
  rw [Bool.not_eq_false] at hg
  simp [redisGet, hg] at h

/-- C4: a present, unexpired (truthy) cache entry is served as-is, with
the loader not invoked; and after a miss is loaded and stored with ttl, a
second read of the same key before the ttl elapses returns the same value
with the loader again not invoked — one loader run for the two calls. -/
theorem readThrough_hit_and_single_load :
    (∀ (r : RedisState) (now : Nat) (key : String) (ttl : Nat) (v : String)
        (loader : LoaderResult),
      redisGet r now key = .ok (some v) → v ≠ "" →
      cache r now key ttl loader = (v, r, false)) ∧
    (∀ (r : RedisState) (t0 t1 : Nat) (key : String) (ttl : Nat) (body : String)
        (loader2 : LoaderResult),
      redisGet r t0 key = .ok none → r.sFail = false → body ≠ "" →
      t1 < t0 + ttl →
      cache r t0 key ttl ⟨body, 200⟩ =
        (body, (cache r t0 key ttl ⟨body, 200⟩).2.1, true) ∧
      cache (cache r t0 key ttl ⟨body, 200⟩).2.1 t1 key ttl loader2 =
        (body, (cache r t0 key ttl ⟨body, 200⟩).2.1, false)) := by
  constructor
  · intro r now key ttl v loader hget hv
    simp [cache, cacheBody, Except.instMonad, Except.bind, Except.pure, hget, hv]
  · intro r t0 t1 key ttl body loader2 hget hs hb ht
    have hg := redisGet_gFail_false hget
    have hstep1 : cache r t0 key ttl ⟨body, 200⟩ =
        (body,
         { r with entries :=
            ⟨key, body, t0 + ttl⟩ :: r.entries.filter (fun e => e.key != key) },
         true) := by
      simp [cache, cacheBody, Except.instMonad, Except.bind, Except.pure, hget, storeIfOk, redisSetex, hs]
    have hget2 : redisGet
        { r with entries :=
            ⟨key, body, t0 + ttl⟩ :: r.entries.filter (fun e => e.key != key) }
        t1 key = .ok (some body) := by
      simp [redisGet, hg, List.find?, ht]
    rw [hstep1]
    refine ⟨rfl, ?_⟩
    simp [cache, cacheBody, Except.instMonad, Except.bind, Except.pure, hget2, hb]

def c4r : RedisState := ⟨[], false, false, false, false⟩

theorem readThrough_hit_and_single_load_witness :
    (redisGet ⟨[⟨"k", "v", 10⟩], false, false, false, false⟩ 3 "k" = .ok (some "v") ∧
     ("v" : String) ≠ "" ∧
     cache ⟨[⟨"k", "v", 10⟩], false, false, false, false⟩ 3 "k" 7 ⟨"w", 200⟩
        = ("v", ⟨[⟨"k", "v", 10⟩], false, false, false, false⟩, false)) ∧
    (redisGet c4r 0 "k" = .ok none ∧ c4r.sFail = false ∧ ("b" : String) ≠ "" ∧
     (3 : Nat) < 0 + 5 ∧
     (cache c4r 0 "k" 5 ⟨"b", 200⟩ =
        ("b", (cache c4r 0 "k" 5 ⟨"b", 200⟩).2.1, true) ∧
      cache (cache c4r 0 "k" 5 ⟨"b", 200⟩).2.1 3 "k" 5 ⟨"c", 200⟩ =
        ("b", (cache c4r 0 "k" 5 ⟨"b", 200⟩).2.1, false))) :=
  ⟨⟨by rfl, by decide,
      readThrough_hit_and_single_load.1 _ 3 "k" 7 "v" ⟨"w", 200⟩ (by rfl) (by decide)⟩,
   ⟨by rfl, by decide, by decide, by decide,
      readThrough_hit_and_single_load.2 c4r 0 3 "k" 5 "b" ⟨"c", 200⟩
        (by rfl) (by decide) (by decide) (by decide)⟩⟩

/-- C5: every store error degrades rather than failing the request.  If
the lookup throws, or the lookup misses and the store throws, `cache`
still returns the loader's result with the store untouched; if the
pattern scan throws, or the scan succeeds and the batch delete throws,
`clearCache` returns with the store untouched and no error. -/
theorem cache_outage_tolerance :
    (∀ (r : RedisState) (now : Nat) (key : String) (ttl : Nat)
        (loader : LoaderResult), r.gFail = true →
      cache r now key ttl loader = (loader.body, r, true)) ∧
    (∀ (r : RedisState) (now : Nat) (key : String) (ttl : Nat)
        (loader : LoaderResult),
      redisGet r now key = .ok none → r.sFail = true →
      cache r now key ttl loader = (loader.body, r, true)) ∧
    (∀ (r : RedisState) (now : Nat) (pat : String), r.kFail = true →
      clearCache r now pat = r) ∧
    (∀ (r : RedisState) (now : Nat) (pat : String),
      r.kFail = false → r.dFail = true →
      clearCache r now pat = r) := by
  refine ⟨?_, ?_, ?_, ?_⟩
  · intro r now key ttl loader hg
    simp [cache, cacheBody, Except.instMonad, Except.bind, Except.pure, redisGet, hg]
  · intro r now key ttl loader hget hs
    simp [cache, cacheBody, Except.instMonad, Except.bind, Except.pure, hget, storeIfOk, redisSetex, hs]
  · intro r now pat hk
    simp [clearCache, clearCacheBody, Except.instMonad, Except.bind, Except.pure, redisKeys, hk]
  · intro r now pat hk hd
    by_cases hlen : 0 < (r.entries.filter
        (fun e => keyMatches pat e.key && decide (now < e.expiresAt))).length
    · simp [clearCache, clearCacheBody, Except.instMonad, Except.bind, Except.pure, redisKeys, hk, redisDel, hd, hlen]
    · simp [clearCache, clearCacheBody, Except.instMonad, Except.bind, Except.pure, redisKeys, hk, redisDel, hd, hlen]

def c5r : RedisState := ⟨[⟨"a:1", "v", 10⟩], true, true, true, true⟩
def c5r2 : RedisState := ⟨[⟨"a:1", "v", 10⟩], false, true, false, true⟩

theorem cache_outage_tolerance_witness :
    (c5r.gFail = true ∧
      cache c5r 0 "a:1" 5 ⟨"b", 200⟩ = ("b", c5r, true)) ∧
    (redisGet c5r2 0 "nope" = .ok none ∧ c5r2.sFail = true ∧
      cache c5r2 0 "nope" 5 ⟨"b", 200⟩ = ("b", c5r2, true)) ∧
    (c5r.kFail = true ∧ clearCache c5r 0 "a:*" = c5r) ∧
    (c5r2.kFail = false ∧ c5r2.dFail = true ∧ clearCache c5r2 0 "a:*" = c5r2) :=
  ⟨⟨by decide, cache_outage_tolerance.1 c5r 0 "a:1" 5 ⟨"b", 200⟩ (by decide)⟩,
   ⟨by rfl, by decide,
      cache_outage_tolerance.2.1 c5r2 0 "nope" 5 ⟨"b", 200⟩ (by rfl) (by decide)⟩,
   ⟨by decide, cache_outage_tolerance.2.2.1 c5r 0 "a:*" (by decide)⟩,
   ⟨by decide, by decide,
      cache_outage_tolerance.2.2.2 c5r2 0 "a:*" (by decide) (by decide)⟩⟩

/-- After deleting exactly the keys that a filter selected, the same
filter selects nothing among the remaining entries. -/
theorem filter_del_no_match (entries : List RedisEntry) (p : RedisEntry → Bool) :
    (entries.filter
        (fun e => !((entries.filter p).map RedisEntry.key).contains e.key)).filter p
      = [] := by
  rw [List.filter_eq_nil_iff]
  intro e he hp
  rw [List.mem_filter] at he
  obtain ⟨hmem, hnc⟩ := he
  rw [Bool.not_eq_true', ← Bool.not_eq_true, List.contains_eq_any_beq] at hnc
  apply hnc
  rw [List.any_eq_true]
  exact ⟨e.key, List.mem_map.mpr ⟨e, List.mem_filter.mpr ⟨hmem, hp⟩, rfl⟩, by simp⟩

/-- C10: invalidation is idempotent — a second `clearCache` with the same
pattern changes nothing beyond the first — and invalidating a pattern
with no matching stored key is a no-op returning without error. -/
theorem invalidate_idempotent_noop :
    (∀ (r : RedisState) (now : Nat) (pat : String),
      clearCache (clearCache r now pat) now pat = clearCache r now pat) ∧
    (∀ (r : RedisState) (now : Nat) (pat : String),
      redisKeys r now pat = .ok [] → clearCache r now pat = r) := by
  have hnoop : ∀ (r : RedisState) (now : Nat) (pat : String),
      redisKeys r now pat = .ok [] → clearCache r now pat = r := by
    intro r now pat hkeys
    simp [clearCache, clearCacheBody, Except.instMonad, Except.bind, Except.pure, hkeys]
  refine ⟨?_, hnoop⟩
  intro r now pat
  by_cases hk : r.kFail = true
  · have h1 : clearCache r now pat = r := by
      simp [clearCache, clearCacheBody, Except.instMonad, Except.bind, Except.pure, redisKeys, hk]
    rw [h1]
    exact h1
  · rw [Bool.not_eq_true] at hk
    by_cases hlen : 0 < (r.entries.filter
        (fun e => keyMatches pat e.key && decide (now < e.expiresAt))).length
    · by_cases hd : r.dFail = true
      · have h1 : clearCache r now pat = r := by
          simp [clearCache, clearCacheBody, Except.instMonad, Except.bind, Except.pure, redisKeys, hk, redisDel, hd, hlen]
        rw [h1]
        exact h1
      · rw [Bool.not_eq_true] at hd
        have h1 : clearCache r now pat =
            { r with entries := (r.entries.filter
                (fun e => !((r.entries.filter
                  (fun e => keyMatches pat e.key && decide (now < e.expiresAt))).map
                    RedisEntry.key).contains e.key)) } := by
          simp [clearCache, clearCacheBody, Except.instMonad, Except.bind, Except.pure, redisKeys, hk, redisDel, hd, hlen]
        rw [h1]
        apply hnoop
        simp only [redisKeys, hk, Bool.false_eq_true, if_false]
        rw [filter_del_no_match r.entries
          (fun e => keyMatches pat e.key && decide (now < e.expiresAt))]
        rfl
    · have h1 : clearCache r now pat = r := by
        simp [clearCache, clearCacheBody, Except.instMonad, Except.bind, Except.pure, redisKeys, hk, hlen]
      rw [h1]
      exact h1

def c10r : RedisState := ⟨[⟨"a:1", "v", 10⟩, ⟨"b:1", "w", 10⟩], false, false, false, false⟩

theorem invalidate_idempotent_noop_witness :
    (clearCache (clearCache c10r 0 "a:*") 0 "a:*" = clearCache c10r 0 "a:*") ∧
    (redisKeys c10r 0 "zzz" = .ok [] ∧ clearCache c10r 0 "zzz" = c10r) :=
  ⟨invalidate_idempotent_noop.1 c10r 0 "a:*",
   by rfl, invalidate_idempotent_noop.2 c10r 0 "zzz" (by rfl)⟩

end Prodigy
